import Mathlib

/-!
Verification development for the mssql-to-snowflake ETL job
(src/mssql.py and src/main.py), as a shallow embedding.

Python dictionaries are modelled as insertion-ordered association lists
(`List (String × String)`) with overwrite-in-place insertion, matching
CPython dict semantics.  External effects (database reads, the Snowflake
session, DROP TABLE results) are supplied as explicit inputs; fallible
Python code is embedded with `Except String`.
-/

namespace MssqlToSf

/-- Python dict assignment `d[k] = v`: updates the value in place if the key
is present (keeping its position), otherwise appends the new pair. -/
def dictInsert (d : List (String × String)) (k v : String) : List (String × String) :=
  match d with
  | [] => [(k, v)]
  | (k', v') :: rest => if k' = k then (k, v) :: rest else (k', v') :: dictInsert rest k v

/-- Python dict lookup `d[k]` as an `Option`: the value of the first pair
whose key is `k`. -/
def dictLookup (d : List (String × String)) (k : String) : Option String :=
  match d with
  | [] => none
  | (k', v) :: rest => if k = k' then some v else dictLookup rest k

/-- Python `d.get(k, dflt)`. -/
def dictGetD (d : List (String × String)) (k dflt : String) : String :=
  match d with
  | [] => dflt
  | (k', v) :: rest => if k = k' then v else dictGetD rest k dflt

/-- A Python dict comprehension `{(f item).key : (f item).val for item in items}`
built on top of `init`, iterating in order with overwrite-in-place inserts. -/
def dictOfList (f : String × String → String × String) (init : List (String × String))
    (items : List (String × String)) : List (String × String) :=
  items.foldl (fun d p => dictInsert d (f p).1 (f p).2) init

/-- Python `str.upper()` (restricted to the ASCII case mapping of Lean),
written over the character list so that it evaluates by kernel reduction. -/
def pyUpper (s : String) : String :=
  String.mk (s.data.map Char.toUpper)

/-- The fixed lookup table `sql_server_to_snowflake_mapping` from
`convertDatatypesFromMssqlToSf` in src/mssql.py. -/
def sql_server_to_snowflake_mapping : List (String × String) :=
  [("int", "NUMBER"),
   ("bigint", "NUMBER"),
   ("smallint", "NUMBER"),
   ("tinyint", "NUMBER"),
   ("numeric", "FLOAT"),
   ("decimal", "FLOAT"),
   ("float", "FLOAT"),
   ("real", "FLOAT"),
   ("money", "NUMBER"),
   ("smallmoney", "NUMBER"),
   ("bit", "BOOLEAN"),
   ("char", "STRING"),
   ("varchar", "STRING"),
   ("text", "STRING"),
   ("nchar", "STRING"),
   ("nvarchar", "STRING"),
   ("ntext", "STRING"),
   ("date", "DATE"),
   ("time", "TIME"),
   ("datetime", "TIMESTAMP"),
   ("datetime2", "TIMESTAMP"),
   ("timestamp", "TIMESTAMP")]

/-- src/mssql.py `convertDatatypesFromMssqlToSf`: the comprehension
`{column.upper() : mapping.get(dataType, STRING) for column, dataType in d.items()}`. -/
def convertDatatypesFromMssqlToSf (mssqlDataTypeMappingDict : List (String × String)) :
    List (String × String) :=
  dictOfList
    (fun p => (pyUpper p.1, dictGetD sql_server_to_snowflake_mapping p.2 "STRING"))
    [] mssqlDataTypeMappingDict

/-- Spec-side definition of the destination type, written from the fixed
table in spec section 4.1 (with the `(anything else) -> STRING` default).
Used only to compare the code's lookup table against the spec's words. -/
def specSnowflakeTypeFor (t : String) : String :=
  if t = "int" ∨ t = "bigint" ∨ t = "smallint" ∨ t = "tinyint" ∨ t = "money" ∨ t = "smallmoney" then
    "NUMBER"
  else if t = "numeric" ∨ t = "decimal" ∨ t = "float" ∨ t = "real" then "FLOAT"
  else if t = "bit" then "BOOLEAN"
  else if t = "char" ∨ t = "varchar" ∨ t = "text" ∨ t = "nchar" ∨ t = "nvarchar" ∨ t = "ntext" then
    "STRING"
  else if t = "date" then "DATE"
  else if t = "time" then "TIME"
  else if t = "datetime" ∨ t = "datetime2" ∨ t = "timestamp" then "TIMESTAMP"
  else "STRING"

/-- Does `pat` occur at the head of `hay`? (helper for substring containment). -/
def charsMatchAt : List Char → List Char → Bool
  | [], _ => true
  | _ :: _, [] => false
  | a :: as, b :: bs => a == b && charsMatchAt as bs

/-- Does `pat` occur anywhere in `hay`? (helper for substring containment). -/
def charsContain (pat : List Char) : List Char → Bool
  | [] => charsMatchAt pat []
  | c :: rest => charsMatchAt pat (c :: rest) || charsContain pat rest

/-- Python `pat in s` substring containment on strings. -/
def strContains (s pat : String) : Bool :=
  charsContain pat.toList s.toList

/-- src/mssql.py `getMsSqlTableDataTypes`, with the catalog query's result rows
(`COLUMN_NAME`, `DATA_TYPE` pairs) supplied as input.  An empty result raises
inside the `try`, and the outer `except` re-raises with the per-table message;
otherwise `dict(zip(df[COLUMN_NAME], df[DATA_TYPE]))` is returned. -/
def getMsSqlTableDataTypes (table : String) (catalogRows : List (String × String)) :
    Except String (List (String × String)) :=
  if catalogRows.isEmpty then
    Except.error ("Something wrong while fetching datatypes of MsSql table " ++ table ++ ": Aborting.")
  else
    Except.ok (dictOfList (fun p => p) [] catalogRows)

/-- src/mssql.py `getMsSqlTableData`, with the underlying `pd.read_sql` outcome
supplied as input (a list of chunks on success, an exception otherwise).  On
success the chunk iterator is returned as-is; any underlying exception is
logged and re-raised — the function has no path that returns `None`. -/
def getMsSqlTableData (readRes : Except String (List (List String))) :
    Except String (Option (List (List String))) :=
  match readRes with
  | Except.ok chunks => Except.ok (some chunks)
  | Except.error _ => Except.error "MS SQL Table data error : Aborting."

/-- src/mssql.py `deleteSfTable`, with the outcome of
`session.sql(DROP TABLE IF EXISTS ...).collect()[0].status` supplied as input.
On a status message it returns Success exactly when the message contains the
marker substring; an exception in the drop path is re-raised. -/
def deleteSfTable (dropRes : Except String String) : Except String String :=
  match dropRes with
  | Except.ok msg => Except.ok (if strContains msg "successfully" then "Success" else "Fail")
  | Except.error _ => Except.error "Snowflake table deletion Error : Aborting."

/-- The quote-stripping done by the top-level handler in src/main.py
(`str(e).replace(quote, empty)` with the single-quote character, code point
39), written over the character list so that it evaluates by kernel
reduction. -/
def sanitize (e : String) : String :=
  String.mk (e.data.filter (fun c => c != Char.ofNat 39))

/-- A snowpark dataframe column: its name together with the sequence of
`cast` operations that have been applied to it, in order. -/
structure SnowCol where
  name : String
  casts : List String
deriving DecidableEq

/-- `snow_df.withColumn(c, snow_df[c].cast(t))`: appends the cast `t` to the
column named `c`.  The type-map keys come from the same table's catalog, so
the referenced column is present in the chunk. -/
def castColumn (df : List SnowCol) (c t : String) : List SnowCol :=
  df.map (fun col => if col.name = c then { col with casts := col.casts ++ [t] } else col)

/-- The typecasting loop of src/main.py (lines 94-99): for each
`(column, dataType)` of the type map, TIMESTAMP columns are first cast to
string, then every column is cast to its mapped type. -/
def applyTypecasts (sfDatatypes : List (String × String)) (df : List SnowCol) : List SnowCol :=
  sfDatatypes.foldl
    (fun acc p =>
      let acc2 := if p.2 = "TIMESTAMP" then castColumn acc p.1 "string" else acc
      castColumn acc2 p.1 p.2)
    df

/-- The effect of one type-map entry on one column (pointwise view of the
typecasting loop). -/
def colStep (col : SnowCol) (p : String × String) : SnowCol :=
  if col.name = p.1 then
    { col with casts := (if p.2 = "TIMESTAMP" then col.casts ++ ["string"] else col.casts) ++ [p.2] }
  else col

/-- Checks that no "TIMESTAMP" cast occurs except immediately after a
"string" cast; `prev` is the cast applied just before the list (or `none`
at the start, when the column still has its raw representation). -/
def tsSafeFrom (prev : Option String) : List String → Bool
  | [] => true
  | t :: rest => ((t != "TIMESTAMP") || (prev == some "string")) && tsSafeFrom (some t) rest

/-- A cast sequence never casts to TIMESTAMP directly from a non-string
representation. -/
def tsSafe (l : List String) : Bool :=
  tsSafeFrom none l

/-- `snow_df.select(names)`: picks the named columns in the requested order,
failing on a name the dataframe does not have. -/
def selectCols (df : List SnowCol) (names : List String) : Except String (List SnowCol) :=
  match names with
  | [] => Except.ok []
  | n :: rest =>
    match df.find? (fun c => c.name == n) with
    | some c =>
      match selectCols df rest with
      | Except.ok cs => Except.ok (c :: cs)
      | Except.error e => Except.error e
    | none => Except.error ("invalid identifier " ++ n)

/-- State of the per-table chunk-loading loop of src/main.py: the columns of
the destination table (none until the first append creates it), the column
order of every append performed so far, and the `flag` counter. -/
structure LoadState where
  destCols : Option (List String)
  written : List (List String)
  flag : Nat
deriving DecidableEq

/-- One iteration of the chunk loop (src/main.py lines 85-115): upper-case the
chunk's column names, build the snowpark dataframe, apply the typecasts, read
the destination's column order back when `flag > 0` and reorder to it, then
append (the first append implicitly creates the destination table). -/
def loadOneChunk (sfDatatypes : List (String × String)) (st : LoadState) (cols : List String) :
    Except String LoadState :=
  let upperCols := cols.map pyUpper
  let snowDf := applyTypecasts sfDatatypes (upperCols.map (fun n => SnowCol.mk n []))
  let newColumns : List String :=
    if st.flag > 0 then
      match st.destCols with
      | some cs => cs
      | none => []
    else []
  match (if newColumns.length > 0 then selectCols snowDf newColumns else Except.ok snowDf) with
  | Except.error e => Except.error e
  | Except.ok outDf =>
    let names := outDf.map (fun c => c.name)
    Except.ok
      { destCols := (match st.destCols with | none => some names | some cs => some cs),
        written := st.written ++ [names],
        flag := st.flag + 1 }

/-- Runs the chunk loop over the remaining chunks from a given state. -/
def loadChunksFrom (sfDatatypes : List (String × String)) (st : LoadState) :
    List (List String) → Except String LoadState
  | [] => Except.ok st
  | c :: rest =>
    match loadOneChunk sfDatatypes st c with
    | Except.error e => Except.error e
    | Except.ok st' => loadChunksFrom sfDatatypes st' rest

/-- The whole chunk loop for one table, from the initial state
(no destination table yet, `flag = 0`). -/
def loadChunks (sfDatatypes : List (String × String)) (chunks : List (List String)) :
    Except String LoadState :=
  loadChunksFrom sfDatatypes (LoadState.mk none [] 0) chunks

/-- An email notification (subject and body; the trailing timestamp of the
Python bodies is external real time and is not modelled). -/
structure Notif where
  subject : String
  body : String
deriving DecidableEq

deriving instance DecidableEq for Except

/-- The external inputs for one configured table pair: the source and
destination qualified names, the catalog rows behind `getMsSqlTableDataTypes`,
the underlying `pd.read_sql` outcome behind `getMsSqlTableData` (each chunk
given by its column-name list), and the DROP TABLE outcome behind
`deleteSfTable`. -/
structure TableCase where
  src : String
  dst : String
  catalogRows : List (String × String)
  readRes : Except String (List (List String))
  dropRes : Except String String
deriving DecidableEq

/-- How the job run ends: normally, via the top-level handler with a failure
notification sent, or with the handler itself crashing before it could send
anything. -/
inductive JobOutcome where
  | completed : JobOutcome
  | failedNotified : String → JobOutcome
  | crashed : String → JobOutcome
deriving DecidableEq

/-- Observable result of a job run: notifications sent in order, appends
performed (destination table, column order), error log entries, and the
outcome. -/
structure JobResult where
  notifs : List Notif
  writes : List (String × List String)
  logs : List String
  outcome : JobOutcome
deriving DecidableEq

def failSubject : String := "Snowpark Job MSSQL to SF : Failed"

def successSubject : String := "Snowpark Job MSSQL to SF : Success"

/-- The per-table failure notification of the `chunks is None` branch
(src/main.py lines 66-74). -/
def noDataNotif (table db : String) : Notif :=
  Notif.mk failSubject
    ("Error Occured while fetching table " ++ table ++ " from Database " ++ db ++ ".\nPlease Check Logs.")

/-- The per-table failure notification of the `status == Fail` branch
(src/main.py lines 117-125). -/
def dropFailNotif (tbl : String) : Notif :=
  Notif.mk failSubject
    ("Error Occured while deleting table " ++ tbl ++ ". Please Check Logs.")

/-- The job-fatal failure notification of the top-level handler
(src/main.py lines 133-142). -/
def jobFailNotif (e : String) : Notif :=
  Notif.mk failSubject ("Job has failed due to reason : " ++ e ++ "\nPlease check logs.")

/-- The final summary notification (src/main.py lines 126-131): its body
reports `len(mapping)`. -/
def jobSuccessNotif (n : Nat) : Notif :=
  Notif.mk successSubject
    ("Successfully loaded " ++ toString n ++ " tables from MS-SQL Server to Snowflake.")

/-- Helper for `pySplitDot`: splits a character list at every separator,
accumulating the current segment in reverse. -/
def splitCharsAux (sep : Char) (acc : List Char) : List Char → List String
  | [] => [String.mk acc.reverse]
  | c :: rest =>
    if c == sep then String.mk acc.reverse :: splitCharsAux sep [] rest
    else splitCharsAux sep (c :: acc) rest

/-- Python `s.split(sep)` for a one-character separator, written over the
character list so that it evaluates by kernel reduction. -/
def pySplitDot (s : String) : List String :=
  splitCharsAux (Char.ofNat 46) [] s.data

/-- The body of the per-table loop of src/main.py for one table pair:
split the source qualified name (Python indexes parts 0, 2, 1 and raises
IndexError when part 2 is missing), fetch and convert the data types, fetch
the chunk stream, branch on the `chunks is None` sentinel, drop the
destination table, and either run the chunk loop or notify.  Returns the
notifications sent and the appends performed, or the exception that
propagates to the top-level handler. -/
def processTable (t : TableCase) : Except String (List Notif × List (String × List String)) :=
  let parts := pySplitDot t.src
  let sourceDb := parts.headD ""
  match parts.get? 2 with
  | none => Except.error "list index out of range"
  | some sourceTable =>
    match getMsSqlTableDataTypes sourceTable t.catalogRows with
    | Except.error e => Except.error e
    | Except.ok mssqlDataTypes =>
      let sfDatatypes := convertDatatypesFromMssqlToSf mssqlDataTypes
      match getMsSqlTableData t.readRes with
      | Except.error e => Except.error e
      | Except.ok none => Except.ok ([noDataNotif sourceTable sourceDb], [])
      | Except.ok (some chunks) =>
        match deleteSfTable t.dropRes with
        | Except.error e => Except.error e
        | Except.ok status =>
          if status = "Success" then
            match loadChunks sfDatatypes chunks with
            | Except.error e => Except.error e
            | Except.ok st => Except.ok ([], st.written.map (fun w => (t.dst, w)))
          else if status = "Fail" then
            Except.ok ([dropFailNotif t.dst], [])
          else
            Except.ok ([], [])

/-- Runs the per-table loop over all configured pairs in order, accumulating
the notifications and appends; a per-table exception stops the loop and is
reported (it escapes to the top-level handler). -/
def runTables : List TableCase → (List Notif × List (String × List String) × Option String)
  | [] => ([], [], none)
  | t :: rest =>
    match processTable t with
    | Except.error e => ([], [], some e)
    | Except.ok (ns, ws) =>
      let r := runTables rest
      (ns ++ r.1, ws ++ r.2.1, r.2.2)

/-- The whole job of src/main.py.  `sfOk` is whether `getSnowflakeSession`
succeeds and `mssqlOk` whether `getMsSqlSessionsForDatabases` succeeds.  When
the Snowflake session creation raises, the top-level handler logs the error
and then evaluates the name `snowflake_session` — which was never assigned —
so `sendEmailNotif` is never reached and the handler dies with a NameError. -/
def runJob (sfOk mssqlOk : Bool) (tables : List TableCase) : JobResult :=
  if sfOk then
    if mssqlOk then
      let r := runTables tables
      match r.2.2 with
      | some e =>
        JobResult.mk (r.1 ++ [jobFailNotif (sanitize e)]) r.2.1 [e] (JobOutcome.failedNotified (sanitize e))
      | none =>
        JobResult.mk (r.1 ++ [jobSuccessNotif tables.length]) r.2.1 [] JobOutcome.completed
    else
      let e := "Something wrong while creating database connections. Aborting."
      JobResult.mk [jobFailNotif (sanitize e)] [] [e] (JobOutcome.failedNotified (sanitize e))
  else
    let e := "Snowflake Connection error : Aborting."
    JobResult.mk [] [] [e] (JobOutcome.crashed "NameError: name snowflake_session is not defined")

/-- A two-table job whose first table's row stream cannot be established. -/
def readFailJobTables : List TableCase :=
  [TableCase.mk "DB.DBO.A" "SF.PUB.A" [("id", "int")] (Except.error "network error")
     (Except.ok "A successfully dropped."),
   TableCase.mk "DB.DBO.B" "SF.PUB.B" [("id", "int")] (Except.ok [["id"]])
     (Except.ok "B successfully dropped.")]

/-- A two-table job where the first table loads and the second table's drop
reports no success marker (a per-table failure). -/
def mixedJobTables : List TableCase :=
  [TableCase.mk "DB.DBO.T1" "SF.PUB.T1" [("id", "int"), ("created", "datetime2")]
     (Except.ok [["id", "created"]]) (Except.ok "T1 successfully dropped."),
   TableCase.mk "DB.DBO.T2" "SF.PUB.T2" [("a", "int")] (Except.ok [["a"]])
     (Except.ok "no marker here")]

theorem dictLookup_dictInsert_self (d : List (String × String)) (k v : String) :
    dictLookup (dictInsert d k v) k = some v := by
  induction d with
  | nil => simp [dictInsert, dictLookup]
  | cons p rest ih =>
    obtain ⟨k', v'⟩ := p
    by_cases h : k' = k
    · subst h; simp [dictInsert, dictLookup]
    · simp only [dictInsert, if_neg h, dictLookup, if_neg (Ne.symm h)]
      exact ih

theorem dictLookup_dictInsert_ne (d : List (String × String)) (k v K : String) (h : K ≠ k) :
    dictLookup (dictInsert d k v) K = dictLookup d K := by
  induction d with
  | nil => simp [dictInsert, dictLookup, h]
  | cons p rest ih =>
    obtain ⟨k', v'⟩ := p
    by_cases hk : k' = k
    · subst hk; simp [dictInsert, dictLookup, h]
    · by_cases hK : K = k'
      · subst hK; simp [dictInsert, dictLookup, hk]
      · simp only [dictInsert, if_neg hk, dictLookup, if_neg hK]
        exact ih

theorem mem_keys_dictInsert (d : List (String × String)) (k v K : String) :
    K ∈ (dictInsert d k v).map Prod.fst ↔ K = k ∨ K ∈ d.map Prod.fst := by
  induction d with
  | nil => simp [dictInsert]
  | cons p rest ih =>
    obtain ⟨k', v'⟩ := p
    by_cases h : k' = k
    · subst h; simp [dictInsert]
    · simp only [dictInsert, if_neg h, List.map_cons, List.mem_cons, ih]
      tauto

theorem dictOfList_cons (f : String × String → String × String) (init : List (String × String))
    (p : String × String) (items : List (String × String)) :
    dictOfList f init (p :: items) = dictOfList f (dictInsert init (f p).1 (f p).2) items := rfl

theorem dictLookup_dictOfList_notMem (f : String × String → String × String)
    (items : List (String × String)) (K : String) (h : ∀ p ∈ items, (f p).1 ≠ K) :
    ∀ init, dictLookup (dictOfList f init items) K = dictLookup init K := by
  induction items with
  | nil => intro init; rfl
  | cons q rest ih =>
    intro init
    rw [dictOfList_cons]
    rw [ih (fun p hp => h p (List.mem_cons_of_mem q hp))]
    exact dictLookup_dictInsert_ne _ _ _ _ (Ne.symm (h q (List.mem_cons_self q rest)))

theorem dictLookup_dictOfList_mem (f : String × String → String × String)
    (items : List (String × String)) (hnd : (items.map (fun p => (f p).1)).Nodup)
    (p : String × String) (hp : p ∈ items) :
    ∀ init, dictLookup (dictOfList f init items) (f p).1 = some (f p).2 := by
  induction items with
  | nil => cases hp
  | cons q rest ih =>
    intro init
    rw [dictOfList_cons]
    rcases List.mem_cons.mp hp with h | h
    · subst h
      have hnotin : ∀ r ∈ rest, (f r).1 ≠ (f p).1 := by
        intro r hr heq
        have hm : (f r).1 ∈ rest.map (fun x => (f x).1) :=
          List.mem_map_of_mem (fun x => (f x).1) hr
        rw [heq] at hm
        exact (List.nodup_cons.mp hnd).1 hm
      rw [dictLookup_dictOfList_notMem f rest _ hnotin]
      exact dictLookup_dictInsert_self _ _ _
    · exact ih (List.nodup_cons.mp hnd).2 h (dictInsert init (f q).1 (f q).2)

theorem mem_keys_dictOfList (f : String × String → String × String)
    (items : List (String × String)) (K : String) :
    ∀ init, (K ∈ (dictOfList f init items).map Prod.fst ↔
      K ∈ init.map Prod.fst ∨ ∃ p ∈ items, (f p).1 = K) := by
  induction items with
  | nil => intro init; simp [dictOfList]
  | cons q rest ih =>
    intro init
    rw [dictOfList_cons, ih, mem_keys_dictInsert]
    simp only [List.mem_cons]
    constructor
    · rintro (⟨h | h⟩ | ⟨p, hp, h⟩)
      · exact Or.inr ⟨q, Or.inl rfl, h.symm⟩
      · exact Or.inl h
      · exact Or.inr ⟨p, Or.inr hp, h⟩
    · rintro (h | ⟨p, hp | hp, h⟩)
      · exact Or.inl (Or.inr h)
      · exact Or.inl (Or.inl (hp ▸ h.symm))
      · exact Or.inr ⟨p, hp, h⟩

theorem mapping_agrees_spec (t : String) :
    dictGetD sql_server_to_snowflake_mapping t "STRING" = specSnowflakeTypeFor t := by
  by_cases h1 : t = "int"
  · subst h1; decide
  by_cases h2 : t = "bigint"
  · subst h2; decide
  by_cases h3 : t = "smallint"
  · subst h3; decide
  by_cases h4 : t = "tinyint"
  · subst h4; decide
  by_cases h5 : t = "numeric"
  · subst h5; decide
  by_cases h6 : t = "decimal"
  · subst h6; decide
  by_cases h7 : t = "float"
  · subst h7; decide
  by_cases h8 : t = "real"
  · subst h8; decide
  by_cases h9 : t = "money"
  · subst h9; decide
  by_cases h10 : t = "smallmoney"
  · subst h10; decide
  by_cases h11 : t = "bit"
  · subst h11; decide
  by_cases h12 : t = "char"
  · subst h12; decide
  by_cases h13 : t = "varchar"
  · subst h13; decide
  by_cases h14 : t = "text"
  · subst h14; decide
  by_cases h15 : t = "nchar"
  · subst h15; decide
  by_cases h16 : t = "nvarchar"
  · subst h16; decide
  by_cases h17 : t = "ntext"
  · subst h17; decide
  by_cases h18 : t = "date"
  · subst h18; decide
  by_cases h19 : t = "time"
  · subst h19; decide
  by_cases h20 : t = "datetime"
  · subst h20; decide
  by_cases h21 : t = "datetime2"
  · subst h21; decide
  by_cases h22 : t = "timestamp"
  · subst h22; decide
  simp [dictGetD, sql_server_to_snowflake_mapping, specSnowflakeTypeFor,
    h1, h2, h3, h4, h5, h6, h7, h8, h9, h10, h11,
    h12, h13, h14, h15, h16, h17, h18, h19, h20, h21, h22]

/-- C1: for every input dictionary, the Type Mapper pairs each column's
upper-cased name with exactly the destination type the fixed table of spec
section 4.1 assigns to its source type token (STRING for any token not in
the table); the function is total, so it never raises. -/
theorem c1_type_mapper_matches_spec_table :
    (∀ t, dictGetD sql_server_to_snowflake_mapping t "STRING" = specSnowflakeTypeFor t) ∧
    (∀ (d : List (String × String)) (c t : String), (c, t) ∈ d →
      (d.map (fun p => pyUpper p.1)).Nodup →
      dictLookup (convertDatatypesFromMssqlToSf d) (pyUpper c) = some (specSnowflakeTypeFor t)) := by
  refine ⟨mapping_agrees_spec, ?_⟩
  intro d c t hmem hnd
  have h := dictLookup_dictOfList_mem
    (fun p => (pyUpper p.1, dictGetD sql_server_to_snowflake_mapping p.2 "STRING"))
    d hnd (c, t) hmem []
  rw [mapping_agrees_spec t] at h
  exact h

theorem c1_type_mapper_matches_spec_table_witness :
    dictLookup (convertDatatypesFromMssqlToSf [("id", "int"), ("created", "datetime2")])
      (pyUpper "created") = some (specSnowflakeTypeFor "datetime2") :=
  c1_type_mapper_matches_spec_table.2 [("id", "int"), ("created", "datetime2")]
    "created" "datetime2" (by decide) (by decide)

/-- C6: deleteSfTable inspects the drop status message and returns Success
exactly when the marker substring is present, Fail exactly when it is absent
(returning, not raising, on either message). -/
theorem c6_delete_status_marker (msg : String) :
    (deleteSfTable (Except.ok msg) = Except.ok "Success" ↔ strContains msg "successfully" = true) ∧
    (deleteSfTable (Except.ok msg) = Except.ok "Fail" ↔ strContains msg "successfully" = false) := by
  cases hb : strContains msg "successfully" with
  | true => simp [deleteSfTable, hb]
  | false => simp [deleteSfTable, hb]

theorem c6_delete_status_marker_witness :
    deleteSfTable (Except.ok "Table A successfully dropped.") = Except.ok "Success" ∧
    deleteSfTable (Except.ok "boom") = Except.ok "Fail" :=
  ⟨(c6_delete_status_marker "Table A successfully dropped.").1.mpr (by decide),
   (c6_delete_status_marker "boom").2.mpr (by decide)⟩

/-- C8: getMsSqlTableDataTypes raises (returns an error, never an empty
mapping) when the catalog query yields zero columns, and otherwise returns
the mapping from each column name to its source data type. -/
theorem c8_datatypes_empty_raises (table : String) (rows : List (String × String)) :
    (rows = [] →
      getMsSqlTableDataTypes table rows =
        Except.error ("Something wrong while fetching datatypes of MsSql table " ++ table ++ ": Aborting.")) ∧
    ((rows.map Prod.fst).Nodup → ∀ p ∈ rows,
      ∃ m, getMsSqlTableDataTypes table rows = Except.ok m ∧ dictLookup m p.1 = some p.2) := by
  constructor
  · intro h; subst h; rfl
  · intro hnd p hp
    refine ⟨dictOfList (fun p => p) [] rows, ?_, ?_⟩
    · obtain _ | ⟨q, rest⟩ := rows
      · cases hp
      · rfl
    · exact dictLookup_dictOfList_mem (fun p => p) rows hnd p hp []

theorem c8_datatypes_empty_raises_witness :
    getMsSqlTableDataTypes "users" [] =
      Except.error ("Something wrong while fetching datatypes of MsSql table " ++ "users" ++ ": Aborting.") ∧
    ∃ m, getMsSqlTableDataTypes "users" [("id", "int")] = Except.ok m ∧
      dictLookup m "id" = some "int" :=
  ⟨(c8_datatypes_empty_raises "users" []).1 rfl,
   (c8_datatypes_empty_raises "users" [("id", "int")]).2 (by decide) ("id", "int") (by decide)⟩

/-- C9: the key set of the Type Mapper output equals the set of upper-cased
forms of the input keys, for every input. -/
theorem c9_output_keys_are_uppercased_input_keys (d : List (String × String)) (K : String) :
    K ∈ (convertDatatypesFromMssqlToSf d).map Prod.fst ↔ K ∈ d.map (fun p => pyUpper p.1) := by
  have h := mem_keys_dictOfList
    (fun p => (pyUpper p.1, dictGetD sql_server_to_snowflake_mapping p.2 "STRING")) d K []
  simp only [List.map_nil, List.not_mem_nil, false_or] at h
  rw [convertDatatypesFromMssqlToSf, h, List.mem_map]

theorem c9_output_keys_are_uppercased_input_keys_witness :
    "ID" ∈ (convertDatatypesFromMssqlToSf [("id", "int")]).map Prod.fst :=
  (c9_output_keys_are_uppercased_input_keys [("id", "int")] "ID").mpr (by decide)

/-- C10: two input columns that differ only in letter case collide on the
upper-cased key, leaving a single output entry whose value comes from the
later input entry, so the output is strictly shorter than the input. -/
theorem c10_case_collision_last_entry_wins (k1 k2 v1 v2 : String) (hne : k1 ≠ k2)
    (hcase : pyUpper k1 = pyUpper k2) :
    convertDatatypesFromMssqlToSf [(k1, v1), (k2, v2)]
        = [(pyUpper k2, dictGetD sql_server_to_snowflake_mapping v2 "STRING")] ∧
    (convertDatatypesFromMssqlToSf [(k1, v1), (k2, v2)]).length
        < ([(k1, v1), (k2, v2)] : List (String × String)).length := by
  constructor
  · simp [convertDatatypesFromMssqlToSf, dictOfList, dictInsert, hcase]
  · simp [convertDatatypesFromMssqlToSf, dictOfList, dictInsert, hcase]

theorem c10_case_collision_last_entry_wins_witness :
    convertDatatypesFromMssqlToSf [("id", "int"), ("ID", "varchar")]
        = [(pyUpper "ID", dictGetD sql_server_to_snowflake_mapping "varchar" "STRING")] ∧
    (convertDatatypesFromMssqlToSf [("id", "int"), ("ID", "varchar")]).length
        < ([("id", "int"), ("ID", "varchar")] : List (String × String)).length :=
  c10_case_collision_last_entry_wins "id" "ID" "int" "varchar" (by decide) (by decide)

theorem colStep_name (col : SnowCol) (p : String × String) : (colStep col p).name = col.name := by
  unfold colStep
  split <;> rfl

theorem foldl_colStep_name (tys : List (String × String)) :
    ∀ col : SnowCol, (tys.foldl colStep col).name = col.name := by
  induction tys with
  | nil => intro col; rfl
  | cons p rest ih =>
    intro col
    rw [List.foldl_cons, ih (colStep col p), colStep_name]

theorem castColumn_step (p : String × String) (df : List SnowCol) :
    castColumn (if p.2 = "TIMESTAMP" then castColumn df p.1 "string" else df) p.1 p.2
      = df.map (fun col => colStep col p) := by
  by_cases ht : p.2 = "TIMESTAMP"
  · rw [if_pos ht]
    unfold castColumn
    rw [List.map_map]
    apply List.map_congr_left
    intro col _
    by_cases hc : col.name = p.1 <;> simp [colStep, Function.comp, hc, ht]
  · rw [if_neg ht]
    unfold castColumn
    apply List.map_congr_left
    intro col _
    by_cases hc : col.name = p.1 <;> simp [colStep, hc, ht]

theorem applyTypecasts_eq_map (tys : List (String × String)) :
    ∀ df : List SnowCol, applyTypecasts tys df = df.map (fun col => tys.foldl colStep col) := by
  induction tys with
  | nil => intro df; simp [applyTypecasts]
  | cons p rest ih =>
    intro df
    have h1 : applyTypecasts (p :: rest) df
        = applyTypecasts rest
            (castColumn (if p.2 = "TIMESTAMP" then castColumn df p.1 "string" else df) p.1 p.2) := rfl
    rw [h1, castColumn_step, ih, List.map_map]
    apply List.map_congr_left
    intro col _
    simp [Function.comp]

theorem applyTypecasts_names (tys : List (String × String)) (df : List SnowCol) :
    (applyTypecasts tys df).map (fun c => c.name) = df.map (fun c => c.name) := by
  rw [applyTypecasts_eq_map, List.map_map]
  apply List.map_congr_left
  intro col _
  simp [Function.comp, foldl_colStep_name]

theorem colStep_keyNe (col : SnowCol) (p : String × String) (h : p.1 ≠ col.name) :
    colStep col p = col := by
  unfold colStep
  rw [if_neg (Ne.symm h)]

theorem foldl_colStep_keysNe (tys : List (String × String)) :
    ∀ col : SnowCol, (∀ p ∈ tys, p.1 ≠ col.name) → tys.foldl colStep col = col := by
  induction tys with
  | nil => intro col _; rfl
  | cons p rest ih =>
    intro col h
    rw [List.foldl_cons, colStep_keyNe col p (h p (List.mem_cons_self p rest))]
    exact ih col (fun q hq => h q (List.mem_cons_of_mem p hq))

theorem tsSafeFrom_append (l : List String) :
    ∀ (prev : Option String) (l' : List String),
      tsSafeFrom prev (l ++ l')
        = (tsSafeFrom prev l && tsSafeFrom (l.foldl (fun _ t => some t) prev) l') := by
  induction l with
  | nil => intro prev l'; simp [tsSafeFrom]
  | cons t rest ih =>
    intro prev l'
    simp only [List.cons_append, tsSafeFrom, List.foldl_cons, List.append_eq]
    rw [ih (some t) l', Bool.and_assoc]

theorem tsSafeFrom_single_notTs (prev : Option String) (t : String) (h : t ≠ "TIMESTAMP") :
    tsSafeFrom prev [t] = true := by
  simp [tsSafeFrom, h]

theorem tsSafeFrom_string_ts (prev : Option String) :
    tsSafeFrom prev ["string", "TIMESTAMP"] = true := by
  simp [tsSafeFrom]

theorem colStep_tsSafe (col : SnowCol) (p : String × String) (h : tsSafe col.casts = true) :
    tsSafe (colStep col p).casts = true := by
  unfold colStep
  by_cases hc : col.name = p.1
  · rw [if_pos hc]
    by_cases ht : p.2 = "TIMESTAMP"
    · rw [if_pos ht, ht]
      show tsSafe ((col.casts ++ ["string"]) ++ ["TIMESTAMP"]) = true
      rw [List.append_assoc, List.singleton_append]
      unfold tsSafe at h ⊢
      rw [tsSafeFrom_append, h, Bool.true_and]
      exact tsSafeFrom_string_ts _
    · rw [if_neg ht]
      show tsSafe (col.casts ++ [p.2]) = true
      unfold tsSafe at h ⊢
      rw [tsSafeFrom_append, h, Bool.true_and]
      exact tsSafeFrom_single_notTs _ _ ht
  · rw [if_neg hc]
    exact h

theorem foldl_colStep_tsSafe (tys : List (String × String)) :
    ∀ col : SnowCol, tsSafe col.casts = true → tsSafe (tys.foldl colStep col).casts = true := by
  induction tys with
  | nil => intro col h; exact h
  | cons p rest ih =>
    intro col h
    rw [List.foldl_cons]
    exact ih (colStep col p) (colStep_tsSafe col p h)

theorem foldl_colStep_timestamp (tys : List (String × String)) :
    ∀ col : SnowCol, (tys.map Prod.fst).Nodup → (col.name, "TIMESTAMP") ∈ tys →
      col.casts = [] → (tys.foldl colStep col).casts = ["string", "TIMESTAMP"] := by
  induction tys with
  | nil => intro col _ hmem _; cases hmem
  | cons q rest ih =>
    intro col hnd hmem hcasts
    by_cases hq : q.1 = col.name
    · have hqeq : q = (col.name, "TIMESTAMP") := by
        rcases List.mem_cons.mp hmem with h | h
        · exact h.symm
        · exfalso
          have hm : col.name ∈ rest.map Prod.fst := by
            have := List.mem_map_of_mem Prod.fst h
            simpa using this
          rw [← hq] at hm
          exact (List.nodup_cons.mp hnd).1 hm
      have hstep : colStep col q = SnowCol.mk col.name ["string", "TIMESTAMP"] := by
        unfold colStep
        rw [hqeq]
        simp [hcasts]
      rw [List.foldl_cons, hstep]
      have hrest : ∀ p ∈ rest, p.1 ≠ (SnowCol.mk col.name ["string", "TIMESTAMP"]).name := by
        intro p hp heq
        have hm : p.1 ∈ rest.map Prod.fst := List.mem_map_of_mem Prod.fst hp
        rw [heq] at hm
        have : col.name ∉ rest.map Prod.fst := by
          have h1 := (List.nodup_cons.mp hnd).1
          rw [hqeq] at h1
          exact h1
        exact this hm
      rw [foldl_colStep_keysNe rest _ hrest]
    · have hmem' : (col.name, "TIMESTAMP") ∈ rest := by
        rcases List.mem_cons.mp hmem with h | h
        · exfalso; exact hq (by rw [← h])
        · exact h
      rw [List.foldl_cons, colStep_keyNe col q hq]
      exact ih col (List.nodup_cons.mp hnd).2 hmem' hcasts

theorem selectCols_names (df : List SnowCol) :
    ∀ (names : List String) (cs : List SnowCol),
      selectCols df names = Except.ok cs → cs.map (fun c => c.name) = names := by
  intro names
  induction names with
  | nil =>
    intro cs h
    have : ([] : List SnowCol) = cs := Except.ok.inj h
    subst this
    rfl
  | cons n rest ih =>
    intro cs h
    unfold selectCols at h
    cases hfind : df.find? (fun c => c.name == n) with
    | none => rw [hfind] at h; cases h
    | some c =>
      rw [hfind] at h
      cases hsel : selectCols df rest with
      | error e => rw [hsel] at h; cases h
      | ok cs' =>
        rw [hsel] at h
        have hcs : c :: cs' = cs := Except.ok.inj h
        subst hcs
        have hb := List.find?_some hfind
        have hname : c.name = n := by simpa using hb
        simp [hname, ih cs' hsel]

theorem loadOneChunk_first (tys : List (String × String)) (c : List String) :
    loadOneChunk tys (LoadState.mk none [] 0) c
      = Except.ok (LoadState.mk (some (c.map pyUpper)) [c.map pyUpper] 1) := by
  simp [loadOneChunk, applyTypecasts_names, List.map_map, Function.comp]

theorem loadOneChunk_established (tys : List (String × String)) (st : LoadState)
    (c D : List String) (hdest : st.destCols = some D) (hflag : 0 < st.flag) (hD : D ≠ []) :
    (∃ e, loadOneChunk tys st c = Except.error e) ∨
    loadOneChunk tys st c = Except.ok (LoadState.mk (some D) (st.written ++ [D]) (st.flag + 1)) := by
  have hlen : 0 < D.length := List.length_pos.mpr hD
  cases hsel : selectCols (applyTypecasts tys ((c.map pyUpper).map (fun n => SnowCol.mk n []))) D with
  | error e =>
    left
    refine ⟨e, ?_⟩
    simp only [loadOneChunk, hdest, gt_iff_lt, hflag, if_true, hlen, hsel]
  | ok outDf =>
    right
    have hnames : outDf.map (fun c => c.name) = D := selectCols_names _ _ _ hsel
    simp only [loadOneChunk, hdest, gt_iff_lt, hflag, if_true, hlen, hsel, hnames]

theorem loadChunksFrom_inv (tys : List (String × String)) (D : List String) (hD : D ≠ []) :
    ∀ (chunks : List (List String)) (st st' : LoadState),
      st.destCols = some D → 0 < st.flag →
      loadChunksFrom tys st chunks = Except.ok st' →
      st'.written = st.written ++ List.replicate chunks.length D ∧ st'.destCols = some D := by
  intro chunks
  induction chunks with
  | nil =>
    intro st st' hdest hflag hok
    simp only [loadChunksFrom] at hok
    have : st = st' := Except.ok.inj hok
    subst this
    simp [hdest]
  | cons c cs ih =>
    intro st st' hdest hflag hok
    rcases loadOneChunk_established tys st c D hdest hflag hD with ⟨e, he⟩ | hone
    · simp only [loadChunksFrom, he] at hok
      exact Except.noConfusion hok
    · simp only [loadChunksFrom, hone] at hok
      obtain ⟨hw, hd⟩ := ih (LoadState.mk (some D) (st.written ++ [D]) (st.flag + 1)) st'
        rfl (Nat.succ_pos st.flag) hok
      refine ⟨?_, hd⟩
      rw [hw]
      simp [List.replicate_succ, List.append_assoc]

/-- C4: a successful run of the chunk loop writes the first chunk in its own
(upper-cased) column order with no reconciliation — implicitly creating the
destination table — and writes every later chunk in the column order read
back from the destination table, which is the first chunk's order. -/
theorem c4_chunk_column_order (tys : List (String × String)) (c0 : List String)
    (rest : List (List String)) (st : LoadState) (h0 : c0 ≠ [])
    (hok : loadChunks tys (c0 :: rest) = Except.ok st) :
    st.written = List.replicate (c0 :: rest).length (c0.map pyUpper) ∧
    st.destCols = some (c0.map pyUpper) := by
  unfold loadChunks at hok
  simp only [loadChunksFrom, loadOneChunk_first tys c0] at hok
  have hU : c0.map pyUpper ≠ [] := by
    intro h
    exact h0 (List.map_eq_nil_iff.mp h)
  obtain ⟨hw, hd⟩ := loadChunksFrom_inv tys (c0.map pyUpper) hU rest
    (LoadState.mk (some (c0.map pyUpper)) [c0.map pyUpper] 1) st rfl Nat.one_pos hok
  refine ⟨?_, hd⟩
  rw [hw]
  simp [List.replicate_succ]

theorem c4_chunk_column_order_witness :
    (LoadState.mk (some ["A", "B"]) [["A", "B"], ["A", "B"]] 2).written
        = List.replicate ((["a", "b"] :: [["b", "a"]] : List (List String))).length
            (["a", "b"].map pyUpper) ∧
    (LoadState.mk (some ["A", "B"]) [["A", "B"], ["A", "B"]] 2).destCols
        = some (["a", "b"].map pyUpper) :=
  c4_chunk_column_order [] ["a", "b"] [["b", "a"]]
    (LoadState.mk (some ["A", "B"]) [["A", "B"], ["A", "B"]] 2) (by decide) (by decide)

/-- C5: in the typecasting loop, every column whose mapped destination type is
TIMESTAMP is cast to string and only then cast to TIMESTAMP, and no column of
the result carries a TIMESTAMP cast that is not immediately preceded by a
string cast. -/
theorem c5_timestamp_cast_via_string (tys : List (String × String)) (df : List SnowCol)
    (c : String) (col : SnowCol) (hnd : (tys.map Prod.fst).Nodup)
    (hts : (c, "TIMESTAMP") ∈ tys) (hinit : ∀ cl ∈ df, cl.casts = [])
    (hcol : col ∈ applyTypecasts tys df) :
    (col.name = c → col.casts = ["string", "TIMESTAMP"]) ∧ tsSafe col.casts = true := by
  rw [applyTypecasts_eq_map] at hcol
  obtain ⟨col0, hcol0, rfl⟩ := List.mem_map.mp hcol
  constructor
  · intro hname
    have hname0 : col0.name = c := by
      rw [← foldl_colStep_name tys col0]
      exact hname
    apply foldl_colStep_timestamp tys col0 hnd ?_ (hinit col0 hcol0)
    rw [hname0]
    exact hts
  · apply foldl_colStep_tsSafe tys col0
    rw [hinit col0 hcol0]
    rfl

theorem c5_timestamp_cast_via_string_witness :
    ((SnowCol.mk "A" ["string", "TIMESTAMP"]).name = "A" →
      (SnowCol.mk "A" ["string", "TIMESTAMP"]).casts = ["string", "TIMESTAMP"]) ∧
    tsSafe (SnowCol.mk "A" ["string", "TIMESTAMP"]).casts = true :=
  c5_timestamp_cast_via_string [("A", "TIMESTAMP")] [SnowCol.mk "A" []] "A"
    (SnowCol.mk "A" ["string", "TIMESTAMP"]) (by decide) (by decide) (by decide) (by decide)

theorem processTable_ok_notifs (t : TableCase)
    (r : List Notif × List (String × List String)) (h : processTable t = Except.ok r) :
    ∀ n ∈ r.1, n.subject = failSubject := by
  intro n hn
  simp only [processTable] at h
  repeat' split at h
  all_goals try exact Except.noConfusion h
  all_goals
    have hr := Except.ok.inj h
    rw [← hr] at hn
    simp at hn
  all_goals
    rw [hn]
    rfl

theorem runTables_notifs_fail (tables : List TableCase) :
    ∀ n ∈ (runTables tables).1, n.subject = failSubject := by
  induction tables with
  | nil =>
    intro n hn
    simp [runTables] at hn
  | cons t rest ih =>
    intro n hn
    cases hpt : processTable t with
    | error e =>
      simp only [runTables, hpt] at hn
      simp at hn
    | ok r =>
      obtain ⟨ns, ws⟩ := r
      simp only [runTables, hpt] at hn
      rcases List.mem_append.mp hn with hcase | hcase
      · exact processTable_ok_notifs t (ns, ws) hpt n hcase
      · exact ih n hcase

/-- C7: when every table pair is processed without a job-fatal exception,
exactly one final success notification is sent, and its body reports the
number of configured table pairs, regardless of per-table failures. -/
theorem c7_single_summary_reports_configured_count (tables : List TableCase)
    (h : (runTables tables).2.2 = none) :
    (runJob true true tables).notifs.filter (fun n => n.subject == successSubject)
      = [jobSuccessNotif tables.length] := by
  have hjob : (runJob true true tables).notifs
      = (runTables tables).1 ++ [jobSuccessNotif tables.length] := by
    simp only [runJob, eq_self_iff_true, if_true, h]
  rw [hjob, List.filter_append]
  have h1 : (runTables tables).1.filter (fun n => n.subject == successSubject) = [] := by
    apply List.filter_eq_nil_iff.mpr
    intro a ha
    rw [runTables_notifs_fail tables a ha]
    decide
  rw [h1, List.nil_append]
  simp [jobSuccessNotif]

theorem c7_single_summary_reports_configured_count_witness :
    (runJob true true mixedJobTables).notifs.filter (fun n => n.subject == successSubject)
      = [jobSuccessNotif mixedJobTables.length] :=
  c7_single_summary_reports_configured_count mixedJobTables (by decide)

/-- C2 (code divergence): getMsSqlTableData either returns the chunk stream
or raises — it never returns the None sentinel, so the driver's
`chunks is None` branch is unreachable; a table whose row stream cannot be
established makes the whole job abort through the top-level handler (one
job-fatal notification, no per-table notification, no destination write for
any pair, the remaining pairs never processed). -/
theorem c2_read_failure_raises_instead_of_sentinel :
    (∀ cs : List (List String), getMsSqlTableData (Except.ok cs) = Except.ok (some cs)) ∧
    (∀ e : String, getMsSqlTableData (Except.error e)
        = Except.error "MS SQL Table data error : Aborting.") ∧
    (runJob true true readFailJobTables).notifs
        = [jobFailNotif "MS SQL Table data error : Aborting."] ∧
    (runJob true true readFailJobTables).writes = [] ∧
    (runJob true true readFailJobTables).outcome
        = JobOutcome.failedNotified "MS SQL Table data error : Aborting." := by
  refine ⟨fun cs => rfl, fun e => rfl, ?_, ?_, ?_⟩ <;> decide

/-- C3 (code divergence): when the Snowflake session creation raises, the
exception is logged and no source connection is used for loading, but the
top-level handler evaluates the unbound name `snowflake_session`, so it
crashes with a NameError before sending any notification: the notification
list is empty. -/
theorem c3_session_failure_crashes_without_notification (ms : Bool) (tables : List TableCase) :
    (runJob false ms tables).notifs = [] ∧
    (runJob false ms tables).writes = [] ∧
    (runJob false ms tables).logs = ["Snowflake Connection error : Aborting."] ∧
    (runJob false ms tables).outcome
        = JobOutcome.crashed "NameError: name snowflake_session is not defined" :=
  ⟨rfl, rfl, rfl, rfl⟩

end MssqlToSf
